import Mathlib

/-!
Verification of the hierarchical spatial resolver in `src/streamlit_app.py`
(Hungary Zone Lookup).  The embedding models the three lookup functions
`find_region_for_point`, `find_branch_for_point` and `find_zone_for_point`
over exact rational coordinates, with shapely's `Polygon.contains` rendered
as the standard interior point-in-polygon test (even-odd crossing number,
boundary excluded) and `Polygon.centroid` as the shoelace centroid.
Python's `float` arithmetic is modelled by exact arithmetic over ℚ and ℝ.
-/

set_option maxHeartbeats 1000000

/-- A planar point in degree space; `x` is longitude, `y` is latitude,
mirroring `Point(lng, lat)` in the source. -/
structure Pt where
  x : ℚ
  y : ℚ
deriving DecidableEq

/-- The cyclic edge list of a ring: consecutive vertex pairs, closing the
ring back to its first vertex. -/
def edges (ring : List Pt) : List (Pt × Pt) :=
  match ring with
  | [] => []
  | p :: _ => ring.zip (ring.tail ++ [p])

/-- Whether `q` lies on the closed segment from `a` to `b`: the cross
product vanishes and `q` is inside the bounding box of the segment. -/
def onSeg (a b q : Pt) : Bool :=
  decide ((b.x - a.x) * (q.y - a.y) - (q.x - a.x) * (b.y - a.y) = 0) &&
  decide (min a.x b.x ≤ q.x) && decide (q.x ≤ max a.x b.x) &&
  decide (min a.y b.y ≤ q.y) && decide (q.y ≤ max a.y b.y)

/-- Whether `q` lies on the boundary of the ring. -/
def onRing (ring : List Pt) (q : Pt) : Bool :=
  (edges ring).any (fun e => onSeg e.1 e.2 q)

/-- Whether the horizontal ray from `q` to the right crosses the edge `e`
(standard even-odd ray-casting rule; exact because coordinates are ℚ). -/
def crossesRay (q : Pt) (e : Pt × Pt) : Bool :=
  (decide (e.1.y > q.y) != decide (e.2.y > q.y)) &&
  decide (q.x < (e.2.x - e.1.x) * (q.y - e.1.y) / (e.2.y - e.1.y) + e.1.x)

/-- Even-odd interior test for a single ring: valid for points that are not
on the ring's boundary (boundary points are handled separately). -/
def insideRing (ring : List Pt) (q : Pt) : Bool :=
  ((edges ring).countP (crossesRay q)) % 2 == 1

/-- One polygon part: an outer ring plus hole rings, as produced by
`shape(feature["geometry"])` for a GeoJSON Polygon. -/
structure PolyGeom where
  outer : List Pt
  holes : List (List Pt)
deriving DecidableEq

/-- Shapely's `polygon.contains(point)` (line 74 / 91 / 108 of the source):
true iff the point lies in the interior of the polygon, i.e. strictly
inside the outer ring and outside the closure of every hole.  Points on
the boundary (outer ring or a hole ring) are NOT contained. -/
def polyContains (g : PolyGeom) (q : Pt) : Bool :=
  !onRing g.outer q && insideRing g.outer q &&
    g.holes.all (fun h => !onRing h q && !insideRing h q)

/-- Containment for a (multi)polygon geometry: inside any constituent part.
A GeoJSON Polygon is the one-part case. -/
def geomContains (g : List PolyGeom) (q : Pt) : Bool :=
  g.any (fun part => polyContains part q)

/-- Twice the signed shoelace area of a ring. -/
def ringA2 (ring : List Pt) : ℚ :=
  ((edges ring).map (fun e => e.1.x * e.2.y - e.2.x * e.1.y)).sum

/-- Shoelace numerator for the x-coordinate of a ring's centroid
(six times area times x). -/
def ringSx (ring : List Pt) : ℚ :=
  ((edges ring).map (fun e => (e.1.x + e.2.x) * (e.1.x * e.2.y - e.2.x * e.1.y))).sum

/-- Shoelace numerator for the y-coordinate of a ring's centroid. -/
def ringSy (ring : List Pt) : ℚ :=
  ((edges ring).map (fun e => (e.1.y + e.2.y) * (e.1.x * e.2.y - e.2.x * e.1.y))).sum

/-- Shapely's `polygon.centroid` (line 126 of the source): area-weighted
shoelace centroid over all rings of all parts.  Under the GeoJSON ring
orientation convention (RFC 7946: exterior rings counter-clockwise, holes
clockwise) hole contributions carry negative sign, so holes subtract.
Degenerate zero-area input would divide by zero, which ℚ's total division
maps to 0; no claim exercises that case. -/
def geomCentroid (g : List PolyGeom) : Pt :=
  let rings := (g.map (fun part => part.outer :: part.holes)).flatten
  let a2 := (rings.map ringA2).sum
  ⟨(rings.map ringSx).sum / (3 * a2), (rings.map ringSy).sum / (3 * a2)⟩

/-- A GeoJSON feature: parsed geometry plus its `properties` map.  Property
values are optional strings; a `none` value stands for a JSON `null`, and a
missing key is simply absent from the list. -/
structure Feature where
  geometry : List PolyGeom
  properties : List (String × Option String)
deriving DecidableEq

/-- A parsed GeoJSON feature collection (the `regions_data` /
`branches_data` / `zones_data` dictionaries): its `features` array. -/
structure LayerData where
  features : List Feature
deriving DecidableEq

/-- Python's `props.get(key)`: `none` when the key is missing or its value
is `null`. -/
def pget (props : List (String × Option String)) (k : String) : Option String :=
  match props with
  | [] => none
  | (k2, v) :: rest => if k2 = k then v else pget rest k

/-- Python's `a or b` for optional string values: `None` and the empty
string are falsy, any other string is truthy. -/
def pyOr (a b : Option String) : Option String :=
  match a with
  | some s => if s = "" then b else some s
  | none => b

/-- The region attributes dictionary built at lines 75-78 of the source. -/
structure RegionResult where
  region_id : Option String
  region_name : Option String
deriving DecidableEq

/-- The branch attributes dictionary built at lines 92-96 of the source. -/
structure BranchResult where
  branch_id : Option String
  branch_name : Option String
  region_id : Option String
deriving DecidableEq

/-- Attribute extraction for a region match (lines 75-78). -/
def regionAttrs (props : List (String × Option String)) : RegionResult :=
  ⟨pget props "region_id", pget props "region_name"⟩

/-- Attribute extraction for a branch match (lines 92-96). -/
def branchAttrs (props : List (String × Option String)) : BranchResult :=
  ⟨pget props "branch_id", pget props "branch_name", pget props "region_id"⟩

/-- `find_region_for_point(lat, lng, regions_data)` (lines 65-79): returns
`None` when the layer is absent, otherwise scans the features in order and
returns the attributes of the first feature whose polygon contains the
point; `None` on a containment miss.  Total: a miss is a value, never an
error. -/
def find_region_for_point (lat lng : ℚ) (regions_data : Option LayerData) :
    Option RegionResult :=
  match regions_data with
  | none => none
  | some d =>
    match d.features.find? (fun f => geomContains f.geometry ⟨lng, lat⟩) with
    | some f => some (regionAttrs f.properties)
    | none => none

/-- `find_branch_for_point(lat, lng, branches_data)` (lines 82-97): same
shape as the region lookup with branch attributes. -/
def find_branch_for_point (lat lng : ℚ) (branches_data : Option LayerData) :
    Option BranchResult :=
  match branches_data with
  | none => none
  | some d =>
    match d.features.find? (fun f => geomContains f.geometry ⟨lng, lat⟩) with
    | some f => some (branchAttrs f.properties)
    | none => none

/-- The zone result dictionary of `find_zone_for_point`: alias-resolved
attributes plus `method`, `confidence` and (on the nearest path only)
`distance_km`. -/
structure ZoneResult where
  zone_id : Option String
  zone_name : Option String
  region_name : Option String
  created_by : Option String
  status : Option String
  method : String
  confidence : String
  distance_km : Option ℝ

/-- The runtime failure the zone lookup can raise: `nearest_zone` is still
`None` at line 136 (`nearest_zone["properties"]`), i.e. a `TypeError` from
subscripting `None`.  The source defines no error classes of its own. -/
inductive PyError where
  | noneSubscript
deriving DecidableEq

/-- The dictionary returned on the containment path (lines 110-118):
Hungarian aliases preferred via Python `or`, `method = "inside"`,
`confidence = "high"`, and no `distance_km` key. -/
def insideResult (props : List (String × Option String)) : ZoneResult :=
  { zone_id := pyOr (pget props "bázis_id") (pget props "zone_id")
    zone_name := pyOr (pget props "bázis_név") (pget props "zone_name")
    region_name := pget props "Régió"
    created_by := pget props "created_by"
    status := pget props "status"
    method := "inside"
    confidence := "high"
    distance_km := none }

noncomputable section

/-- `point.distance(centroid)` (line 127): planar Euclidean distance in
degree space. -/
def pdist (p q : Pt) : ℝ :=
  Real.sqrt (((p.x - q.x : ℚ) : ℝ) ^ 2 + ((p.y - q.y : ℚ) : ℝ) ^ 2)

/-- Distance from a point to a feature's polygon centroid, the quantity
tracked by the nearest-zone loop. -/
def featDist (q : Pt) (f : Feature) : ℝ :=
  pdist q (geomCentroid f.geometry)

/-- Round half to even at integer precision, the rounding rule of Python's
built-in `round` (modelled on exact reals, ignoring binary float
representation error). -/
def roundHalfEven (y : ℝ) : ℤ :=
  if y - ⌊y⌋ < 1 / 2 then ⌊y⌋
  else if 1 / 2 < y - ⌊y⌋ then ⌊y⌋ + 1
  else if ⌊y⌋ % 2 = 0 then ⌊y⌋ else ⌊y⌋ + 1

/-- Python's `round(x, 2)` (line 145). -/
def pyRound2 (x : ℝ) : ℝ :=
  (roundHalfEven (x * 100) : ℝ) / 100

/-- The dictionary returned on the nearest-fallback path (lines 137-146):
same attribute extraction, `method = "nearest"`, `confidence = "low"`, and
`distance_km = round(min_distance * 85, 2)` (lines 134 and 145). -/
def nearestResult (props : List (String × Option String)) (minDistance : ℝ) :
    ZoneResult :=
  { zone_id := pyOr (pget props "bázis_id") (pget props "zone_id")
    zone_name := pyOr (pget props "bázis_név") (pget props "zone_name")
    region_name := pget props "Régió"
    created_by := pget props "created_by"
    status := pget props "status"
    method := "nearest"
    confidence := "low"
    distance_km := some (pyRound2 (minDistance * 85)) }

/-- The nearest-zone loop of lines 121-131.  The accumulator is
`none` while `nearest_zone is None and min_distance == float("inf")`; any
real distance compares strictly below `float("inf")`, so the first feature
always installs itself, which the `none` case mirrors.  The update guard
is the source's strict `distance < min_distance`, so ties keep the earlier
feature. -/
def nearestLoop (point : Pt) :
    List Feature → Option (Feature × ℝ) → Option (Feature × ℝ)
  | [], acc => acc
  | f :: rest, none =>
      nearestLoop point rest (some (f, pdist point (geomCentroid f.geometry)))
  | f :: rest, some (bf, bd) =>
      if pdist point (geomCentroid f.geometry) < bd then
        nearestLoop point rest (some (f, pdist point (geomCentroid f.geometry)))
      else
        nearestLoop point rest (some (bf, bd))

/-- `find_zone_for_point(lat, lng, zones_data)` (lines 100-146): first the
containment scan over the zone features in order (lines 105-118); if no
feature contains the point, the centroid-distance nearest loop (lines
121-131) followed by the unit conversion and rounding (lines 134, 145).
When the feature list is empty the loop leaves `nearest_zone = None` and
line 136 raises a `TypeError`, modelled as `Except.error`. -/
def find_zone_for_point (lat lng : ℚ) (zones_data : LayerData) :
    Except PyError ZoneResult :=
  let point : Pt := ⟨lng, lat⟩
  match zones_data.features.find? (fun f => geomContains f.geometry point) with
  | some f => Except.ok (insideResult f.properties)
  | none =>
    match nearestLoop point zones_data.features none with
    | some (nf, minDistance) => Except.ok (nearestResult nf.properties minDistance)
    | none => Except.error PyError.noneSubscript

end

/-- The region label of the submission record (line 288 of the source):
`region_result["region_name"] if region_result else
(zone_result.get("region_name") or "N/A")`. -/
def submissionRegionName (region_result : Option RegionResult)
    (zone_result : ZoneResult) : Option String :=
  match region_result with
  | some r => r.region_name
  | none => pyOr zone_result.region_name (some "N/A")

/-- Axis-aligned square covering x,y ∈ [0,2] (counter-clockwise). -/
def sqA : PolyGeom := ⟨[⟨0, 0⟩, ⟨2, 0⟩, ⟨2, 2⟩, ⟨0, 2⟩], []⟩

/-- Axis-aligned square covering x ∈ [1,3], y ∈ [0,2]; overlaps `sqA`. -/
def sqB : PolyGeom := ⟨[⟨1, 0⟩, ⟨3, 0⟩, ⟨3, 2⟩, ⟨1, 2⟩], []⟩

/-- Axis-aligned square covering x ∈ [4,6], y ∈ [0,2]; disjoint from
`sqA`, centroid at (5,1). -/
def sqC : PolyGeom := ⟨[⟨4, 0⟩, ⟨6, 0⟩, ⟨6, 2⟩, ⟨4, 2⟩], []⟩

/-- A fully attributed feature over `sqA`. -/
def featA : Feature :=
  ⟨[sqA],
   [("region_id", some "R-1"), ("region_name", some "Tiszántúl"),
    ("branch_id", some "B-1"), ("branch_name", some "Debrecen"),
    ("bázis_id", some "Z-A"), ("bázis_név", some "A bázis"),
    ("Régió", some "Tiszántúl"), ("status", some "active")]⟩

/-- A fully attributed feature over `sqB`. -/
def featB : Feature :=
  ⟨[sqB],
   [("region_id", some "R-2"), ("region_name", some "Nyugat"),
    ("branch_id", some "B-2"), ("branch_name", some "Győr"),
    ("bázis_id", some "Z-B"), ("bázis_név", some "B bázis"),
    ("Régió", some "Nyugat"), ("status", some "active")]⟩

/-- A fully attributed feature over `sqC`. -/
def featC : Feature :=
  ⟨[sqC],
   [("region_id", some "R-3"), ("region_name", some "Kelet"),
    ("branch_id", some "B-3"), ("branch_name", some "Nyíregyháza"),
    ("bázis_id", some "Z-C"), ("bázis_név", some "C bázis"),
    ("Régió", some "Kelet"), ("status", some "active")]⟩

/-- A zone feature carrying BOTH aliases of the zone id, with the
localized alias present but empty. -/
def zf8 : Feature :=
  ⟨[sqA],
   [("bázis_id", some ""), ("zone_id", some "Z-1"),
    ("bázis_név", some "Bázis Egy"), ("zone_name", some "Zone One")]⟩

/-- A zone feature whose `Régió` attribute is present but empty. -/
def zf9 : Feature :=
  ⟨[sqA], [("bázis_id", some "Z-9"), ("bázis_név", some "Bázis Kilenc"),
           ("Régió", some "")]⟩

/-- A zone feature carrying `Régió = "Tiszántúl"`. -/
def zf9b : Feature :=
  ⟨[sqA], [("bázis_id", some "Z-9b"), ("Régió", some "Tiszántúl")]⟩

/-! General lemmas about the embedded operations. -/

theorem find?_first {α : Type} (q : α → Bool) (l : List α) :
    ∀ i : Fin l.length, q (l.get i) = true →
    (∀ j : Fin l.length, j < i → q (l.get j) = false) →
    l.find? q = some (l.get i) := by
  induction l with
  | nil => intro i; exact i.elim0
  | cons a t ih =>
    intro i
    obtain ⟨iv, hi⟩ := i
    cases iv with
    | zero =>
      intro hc hprev
      exact List.find?_cons_of_pos _ hc
    | succ k =>
      intro hc hprev
      have h0 : q a = false := hprev ⟨0, Nat.succ_pos _⟩ (Fin.mk_lt_mk.mpr (Nat.succ_pos _))
      rw [List.find?_cons_of_neg _ (by simp [h0])]
      exact ih ⟨k, Nat.lt_of_succ_lt_succ hi⟩ hc fun j hj =>
        hprev ⟨j.val + 1, Nat.succ_lt_succ j.isLt⟩
          (Fin.mk_lt_mk.mpr (Nat.succ_lt_succ (Fin.mk_lt_mk.mp hj)))

theorem find?_none_of_all_false (p : Pt) (fs : List Feature)
    (hout : ∀ f ∈ fs, geomContains f.geometry p = false) :
    fs.find? (fun g => geomContains g.geometry p) = none :=
  List.find?_eq_none.mpr fun x hx => by simp [hout x hx]

theorem nearestLoop_acc (q : Pt) (fs : List Feature) : ∀ (bf : Feature) (bd : ℝ),
    (nearestLoop q fs (some (bf, bd)) = some (bf, bd) ∧
      ∀ j : Fin fs.length, bd ≤ featDist q (fs.get j)) ∨
    ∃ i : Fin fs.length,
      nearestLoop q fs (some (bf, bd)) = some (fs.get i, featDist q (fs.get i)) ∧
      featDist q (fs.get i) < bd ∧
      (∀ j : Fin fs.length, featDist q (fs.get i) ≤ featDist q (fs.get j)) ∧
      ∀ j : Fin fs.length, j < i → featDist q (fs.get i) < featDist q (fs.get j) := by
  induction fs with
  | nil => exact fun bf bd => Or.inl ⟨rfl, fun j => j.elim0⟩
  | cons f rest ih =>
    intro bf bd
    by_cases hlt : pdist q (geomCentroid f.geometry) < bd
    · have hstep : nearestLoop q (f :: rest) (some (bf, bd)) =
          nearestLoop q rest (some (f, pdist q (geomCentroid f.geometry))) := by
        rw [nearestLoop, if_pos hlt]
      rcases ih f (pdist q (geomCentroid f.geometry)) with
        ⟨heq, hall⟩ | ⟨i, heq, hlt2, hall, hstrict⟩
      · refine Or.inr ⟨⟨0, Nat.succ_pos _⟩, hstep.trans heq, hlt, ?_, ?_⟩
        · intro j
          obtain ⟨jv, hj⟩ := j
          cases jv with
          | zero => exact le_refl _
          | succ k => exact hall ⟨k, Nat.lt_of_succ_lt_succ hj⟩
        · intro j hj
          have hj0 : j.val < 0 := Fin.lt_def.mp hj
          omega
      · refine Or.inr ⟨i.succ, hstep.trans heq, lt_trans hlt2 hlt, ?_, ?_⟩
        · intro j
          obtain ⟨jv, hj⟩ := j
          cases jv with
          | zero => exact le_of_lt hlt2
          | succ k => exact hall ⟨k, Nat.lt_of_succ_lt_succ hj⟩
        · intro j
          obtain ⟨jv, hj⟩ := j
          cases jv with
          | zero => exact fun hlt0 => hlt2
          | succ k =>
            intro hjk
            exact hstrict ⟨k, Nat.lt_of_succ_lt_succ hj⟩
              (Fin.mk_lt_mk.mpr (Nat.lt_of_succ_lt_succ (Fin.mk_lt_mk.mp hjk)))
    · have hge : bd ≤ pdist q (geomCentroid f.geometry) := le_of_not_lt hlt
      have hstep : nearestLoop q (f :: rest) (some (bf, bd)) =
          nearestLoop q rest (some (bf, bd)) := by
        rw [nearestLoop, if_neg hlt]
      rcases ih bf bd with ⟨heq, hall⟩ | ⟨i, heq, hlt2, hall, hstrict⟩
      · refine Or.inl ⟨hstep.trans heq, ?_⟩
        intro j
        obtain ⟨jv, hj⟩ := j
        cases jv with
        | zero => exact hge
        | succ k => exact hall ⟨k, Nat.lt_of_succ_lt_succ hj⟩
      · refine Or.inr ⟨i.succ, hstep.trans heq, hlt2, ?_, ?_⟩
        · intro j
          obtain ⟨jv, hj⟩ := j
          cases jv with
          | zero => exact le_trans (le_of_lt hlt2) hge
          | succ k => exact hall ⟨k, Nat.lt_of_succ_lt_succ hj⟩
        · intro j
          obtain ⟨jv, hj⟩ := j
          cases jv with
          | zero => exact fun hlt0 => lt_of_lt_of_le hlt2 hge
          | succ k =>
            intro hjk
            exact hstrict ⟨k, Nat.lt_of_succ_lt_succ hj⟩
              (Fin.mk_lt_mk.mpr (Nat.lt_of_succ_lt_succ (Fin.mk_lt_mk.mp hjk)))

theorem nearestLoop_none_spec (q : Pt) (fs : List Feature) (hne : fs ≠ []) :
    ∃ i : Fin fs.length,
      nearestLoop q fs none = some (fs.get i, featDist q (fs.get i)) ∧
      (∀ j : Fin fs.length, featDist q (fs.get i) ≤ featDist q (fs.get j)) ∧
      ∀ j : Fin fs.length, j < i → featDist q (fs.get i) < featDist q (fs.get j) := by
  cases fs with
  | nil => exact absurd rfl hne
  | cons f rest =>
    have hstep : nearestLoop q (f :: rest) none =
        nearestLoop q rest (some (f, pdist q (geomCentroid f.geometry))) := by
      rw [nearestLoop]
    rcases nearestLoop_acc q rest f (pdist q (geomCentroid f.geometry)) with
      ⟨heq, hall⟩ | ⟨i, heq, hlt2, hall, hstrict⟩
    · refine ⟨⟨0, Nat.succ_pos _⟩, hstep.trans heq, ?_, ?_⟩
      · intro j
        obtain ⟨jv, hj⟩ := j
        cases jv with
        | zero => exact le_refl _
        | succ k => exact hall ⟨k, Nat.lt_of_succ_lt_succ hj⟩
      · intro j hj
        have hj0 : j.val < 0 := Fin.lt_def.mp hj
        omega
    · refine ⟨i.succ, hstep.trans heq, ?_, ?_⟩
      · intro j
        obtain ⟨jv, hj⟩ := j
        cases jv with
        | zero => exact le_of_lt hlt2
        | succ k => exact hall ⟨k, Nat.lt_of_succ_lt_succ hj⟩
      · intro j
        obtain ⟨jv, hj⟩ := j
        cases jv with
        | zero => exact fun hlt0 => hlt2
        | succ k =>
          intro hjk
          exact hstrict ⟨k, Nat.lt_of_succ_lt_succ hj⟩
            (Fin.mk_lt_mk.mpr (Nat.lt_of_succ_lt_succ (Fin.mk_lt_mk.mp hjk)))

theorem find_zone_eq_inside (lat lng : ℚ) (fs : List Feature) (f : Feature)
    (h : fs.find? (fun g => geomContains g.geometry ⟨lng, lat⟩) = some f) :
    find_zone_for_point lat lng ⟨fs⟩ = Except.ok (insideResult f.properties) := by
  simp [find_zone_for_point, h]

theorem find_zone_nearest_spec (lat lng : ℚ) (fs : List Feature)
    (hfind : fs.find? (fun g => geomContains g.geometry ⟨lng, lat⟩) = none)
    (hne : fs ≠ []) :
    ∃ i : Fin fs.length,
      find_zone_for_point lat lng ⟨fs⟩ =
        Except.ok (nearestResult (fs.get i).properties (featDist ⟨lng, lat⟩ (fs.get i))) ∧
      (∀ j : Fin fs.length,
        featDist ⟨lng, lat⟩ (fs.get i) ≤ featDist ⟨lng, lat⟩ (fs.get j)) ∧
      ∀ j : Fin fs.length, j < i →
        featDist ⟨lng, lat⟩ (fs.get i) < featDist ⟨lng, lat⟩ (fs.get j) := by
  obtain ⟨i, hloop, hall, hstrict⟩ := nearestLoop_none_spec ⟨lng, lat⟩ fs hne
  exact ⟨i, by simp [find_zone_for_point, hfind, hloop], hall, hstrict⟩

theorem find_zone_single (lat lng : ℚ) (f : Feature)
    (h : geomContains f.geometry ⟨lng, lat⟩ = false) :
    find_zone_for_point lat lng ⟨[f]⟩ =
      Except.ok (nearestResult f.properties (featDist ⟨lng, lat⟩ f)) := by
  have hf : ([f].find? (fun g => geomContains g.geometry (⟨lng, lat⟩ : Pt))) = none := by
    rw [List.find?_cons_of_neg _ (by simp [h])]
    rfl
  simp [find_zone_for_point, hf, nearestLoop, featDist]

theorem pdist_eq (p q : Pt) (c : ℚ) (hc : 0 ≤ c)
    (h : (p.x - q.x) ^ 2 + (p.y - q.y) ^ 2 = c ^ 2) : pdist p q = (c : ℝ) := by
  rw [pdist]
  have h2 : ((p.x - q.x : ℚ) : ℝ) ^ 2 + ((p.y - q.y : ℚ) : ℝ) ^ 2 = ((c : ℚ) : ℝ) ^ 2 := by
    exact_mod_cast congrArg (fun r : ℚ => (r : ℝ)) h
  rw [h2, Real.sqrt_sq (by exact_mod_cast hc)]

theorem pdist_nonneg (p q : Pt) : 0 ≤ pdist p q := Real.sqrt_nonneg _

theorem featDist_eval (q : Pt) (f : Feature) (ctr : Pt) (c : ℚ)
    (hctr : geomCentroid f.geometry = ctr) (h0 : 0 ≤ c)
    (h : (q.x - ctr.x) ^ 2 + (q.y - ctr.y) ^ 2 = c ^ 2) :
    featDist q f = (c : ℝ) := by
  rw [featDist, hctr]
  exact pdist_eq _ _ c h0 h

theorem roundHalfEven_of_lt (y : ℝ) (n : ℤ) (h1 : (n : ℝ) ≤ y)
    (h2 : y < (n : ℝ) + 1 / 2) : roundHalfEven y = n := by
  have hf : ⌊y⌋ = n := Int.floor_eq_iff.mpr ⟨h1, by linarith⟩
  rw [roundHalfEven, hf, if_pos (by linarith)]

theorem roundHalfEven_of_gt (y : ℝ) (n : ℤ) (h1 : (n : ℝ) + 1 / 2 < y)
    (h2 : y < (n : ℝ) + 1) : roundHalfEven y = n + 1 := by
  have hf : ⌊y⌋ = n := Int.floor_eq_iff.mpr ⟨by linarith, by linarith⟩
  rw [roundHalfEven, hf, if_neg (by intro hcon; linarith),
    if_pos (by linarith)]

theorem roundHalfEven_tie_even (y : ℝ) (n : ℤ) (hy : y = (n : ℝ) + 1 / 2)
    (he : n % 2 = 0) : roundHalfEven y = n := by
  have hf : ⌊y⌋ = n :=
    Int.floor_eq_iff.mpr ⟨by rw [hy]; linarith, by rw [hy]; linarith⟩
  rw [roundHalfEven, hf, if_neg (by rw [hy]; intro hcon; linarith),
    if_neg (by rw [hy]; intro hcon; linarith), if_pos he]

theorem roundHalfEven_nonneg (y : ℝ) (hy : 0 ≤ y) : 0 ≤ roundHalfEven y := by
  have h0 : 0 ≤ ⌊y⌋ := Int.floor_nonneg.mpr hy
  rw [roundHalfEven]
  split_ifs <;> omega

theorem pyRound2_nonneg (x : ℝ) (hx : 0 ≤ x) : 0 ≤ pyRound2 x := by
  rw [pyRound2]
  have h := roundHalfEven_nonneg (x * 100) (by nlinarith)
  have h2 : (0 : ℝ) ≤ (roundHalfEven (x * 100) : ℝ) := by exact_mod_cast h
  linarith

/-! Concrete evaluation lemmas for the witness geometries. -/

theorem featA_centroid : geomCentroid featA.geometry = ⟨1, 1⟩ := by
  norm_num [featA, geomCentroid, sqA, ringA2, ringSx, ringSy, edges, Pt.mk.injEq]

theorem featA_contains_inner : geomContains featA.geometry ⟨3/2, 1⟩ = true := by
  norm_num [featA, sqA, geomContains, polyContains, onRing, insideRing, edges, onSeg,
    crossesRay, List.countP, List.countP.go]

theorem featB_contains_inner : geomContains featB.geometry ⟨3/2, 1⟩ = true := by
  norm_num [featB, sqB, geomContains, polyContains, onRing, insideRing, edges, onSeg,
    crossesRay, List.countP, List.countP.go]

theorem featA_misses_right : geomContains featA.geometry ⟨5/2, 1⟩ = false := by
  norm_num [featA, sqA, geomContains, polyContains, onRing, insideRing, edges, onSeg,
    crossesRay, List.countP, List.countP.go]

theorem featB_contains_right : geomContains featB.geometry ⟨5/2, 1⟩ = true := by
  norm_num [featB, sqB, geomContains, polyContains, onRing, insideRing, edges, onSeg,
    crossesRay, List.countP, List.countP.go]

theorem featA_contains_center : geomContains featA.geometry ⟨1, 1⟩ = true := by
  norm_num [featA, sqA, geomContains, polyContains, onRing, insideRing, edges, onSeg,
    crossesRay, List.countP, List.countP.go]

theorem featA_misses_far : geomContains featA.geometry ⟨8, 1⟩ = false := by
  norm_num [featA, sqA, geomContains, polyContains, onRing, insideRing, edges, onSeg,
    crossesRay, List.countP, List.countP.go]

theorem featC_misses_far : geomContains featC.geometry ⟨8, 1⟩ = false := by
  norm_num [featC, sqC, geomContains, polyContains, onRing, insideRing, edges, onSeg,
    crossesRay, List.countP, List.countP.go]

theorem featA_misses_corner : geomContains featA.geometry ⟨10, 10⟩ = false := by
  norm_num [featA, sqA, geomContains, polyContains, onRing, insideRing, edges, onSeg,
    crossesRay, List.countP, List.countP.go]

/-! Claim theorems. -/

/-- C1: for every layer (region, branch, or zone) and every point, the
containment scan tests records in layer insertion order and returns the
attributes of the first record whose polygon contains the point; order,
never area, decides between overlapping polygons. -/
theorem containment_first_match (lat lng : ℚ) (fs : List Feature) (i : Fin fs.length)
    (hc : geomContains (fs.get i).geometry ⟨lng, lat⟩ = true)
    (hprev : ∀ j : Fin fs.length, j < i → geomContains (fs.get j).geometry ⟨lng, lat⟩ = false) :
    find_region_for_point lat lng (some ⟨fs⟩) = some (regionAttrs (fs.get i).properties) ∧
    find_branch_for_point lat lng (some ⟨fs⟩) = some (branchAttrs (fs.get i).properties) ∧
    find_zone_for_point lat lng ⟨fs⟩ = Except.ok (insideResult (fs.get i).properties) := by
  have hf : fs.find? (fun g => geomContains g.geometry (⟨lng, lat⟩ : Pt)) = some (fs.get i) :=
    find?_first _ fs i hc hprev
  exact ⟨by simp [find_region_for_point, hf], by simp [find_branch_for_point, hf],
    find_zone_eq_inside lat lng fs _ hf⟩

/-- C1 witness: with overlapping squares A and B both containing point
(lat 1, lng 3/2), the layer [A, B] resolves to A and [B, A] resolves to B;
with a point inside only B, the layer [A, B] resolves to B. -/
theorem containment_first_match_check :
    (geomContains featA.geometry ⟨3/2, 1⟩ = true ∧
      geomContains featB.geometry ⟨3/2, 1⟩ = true ∧
      geomContains featA.geometry ⟨5/2, 1⟩ = false ∧
      geomContains featB.geometry ⟨5/2, 1⟩ = true) ∧
    find_zone_for_point 1 (3/2) ⟨[featA, featB]⟩ = Except.ok (insideResult featA.properties) ∧
    find_zone_for_point 1 (3/2) ⟨[featB, featA]⟩ = Except.ok (insideResult featB.properties) ∧
    find_zone_for_point 1 (5/2) ⟨[featA, featB]⟩ = Except.ok (insideResult featB.properties) ∧
    find_region_for_point 1 (3/2) (some ⟨[featA, featB]⟩) =
      some (regionAttrs featA.properties) := by
  have hprev0AB : ∀ j : Fin ([featA, featB] : List Feature).length,
      j < ⟨0, by norm_num⟩ → geomContains (([featA, featB] : List Feature).get j).geometry ⟨3/2, 1⟩ = false := by
    intro j hj
    have hj0 : j.val < 0 := Fin.lt_def.mp hj
    omega
  have hprev0BA : ∀ j : Fin ([featB, featA] : List Feature).length,
      j < ⟨0, by norm_num⟩ → geomContains (([featB, featA] : List Feature).get j).geometry ⟨3/2, 1⟩ = false := by
    intro j hj
    have hj0 : j.val < 0 := Fin.lt_def.mp hj
    omega
  have hprev1 : ∀ j : Fin ([featA, featB] : List Feature).length,
      j < ⟨1, by norm_num⟩ → geomContains (([featA, featB] : List Feature).get j).geometry ⟨5/2, 1⟩ = false := by
    intro j hj
    obtain ⟨jv, hjlt⟩ := j
    have hj1 : jv < 1 := Fin.lt_def.mp hj
    cases jv with
    | zero => exact featA_misses_right
    | succ k => omega
  refine ⟨⟨featA_contains_inner, featB_contains_inner, featA_misses_right, featB_contains_right⟩,
    ?_, ?_, ?_, ?_⟩
  · exact (containment_first_match 1 (3/2) [featA, featB] ⟨0, by norm_num⟩
      featA_contains_inner hprev0AB).2.2
  · exact (containment_first_match 1 (3/2) [featB, featA] ⟨0, by norm_num⟩
      featB_contains_inner hprev0BA).2.2
  · exact (containment_first_match 1 (5/2) [featA, featB] ⟨1, by norm_num⟩
      featB_contains_right hprev1).2.2
  · exact (containment_first_match 1 (3/2) [featA, featB] ⟨0, by norm_num⟩
      featA_contains_inner hprev0AB).1

/-- C2: for every non-empty zone layer and every point contained in no
zone polygon, the nearest-fallback returns the record whose centroid
distance to the point is minimal, and among ties the earliest record in
scan order. -/
theorem nearest_fallback_minimal (lat lng : ℚ) (fs : List Feature) (hne : fs ≠ [])
    (hout : ∀ f ∈ fs, geomContains f.geometry ⟨lng, lat⟩ = false) :
    ∃ i : Fin fs.length,
      find_zone_for_point lat lng ⟨fs⟩ =
        Except.ok (nearestResult (fs.get i).properties (featDist ⟨lng, lat⟩ (fs.get i))) ∧
      (∀ j : Fin fs.length,
        featDist ⟨lng, lat⟩ (fs.get i) ≤ featDist ⟨lng, lat⟩ (fs.get j)) ∧
      ∀ j : Fin fs.length, j < i →
        featDist ⟨lng, lat⟩ (fs.get i) < featDist ⟨lng, lat⟩ (fs.get j) :=
  find_zone_nearest_spec lat lng fs (find?_none_of_all_false _ fs hout) hne

/-- C2 witness: the layer [A, C] with point (lat 1, lng 8) outside both
squares resolves through the nearest fallback to a minimal-distance
record. -/
theorem nearest_fallback_minimal_check :
    (([featA, featC] : List Feature) ≠ [] ∧
      ∀ f ∈ ([featA, featC] : List Feature), geomContains f.geometry ⟨8, 1⟩ = false) ∧
    ∃ i : Fin ([featA, featC] : List Feature).length,
      find_zone_for_point 1 8 ⟨[featA, featC]⟩ =
        Except.ok (nearestResult (([featA, featC] : List Feature).get i).properties
          (featDist ⟨8, 1⟩ (([featA, featC] : List Feature).get i))) ∧
      (∀ j : Fin ([featA, featC] : List Feature).length,
        featDist ⟨8, 1⟩ (([featA, featC] : List Feature).get i) ≤
          featDist ⟨8, 1⟩ (([featA, featC] : List Feature).get j)) ∧
      ∀ j : Fin ([featA, featC] : List Feature).length, j < i →
        featDist ⟨8, 1⟩ (([featA, featC] : List Feature).get i) <
          featDist ⟨8, 1⟩ (([featA, featC] : List Feature).get j) := by
  have hout : ∀ f ∈ ([featA, featC] : List Feature),
      geomContains f.geometry ⟨8, 1⟩ = false := by
    intro f hf
    simp only [List.mem_cons, List.not_mem_nil, or_false] at hf
    rcases hf with rfl | rfl
    · exact featA_misses_far
    · exact featC_misses_far
  exact ⟨⟨by simp, hout⟩, nearest_fallback_minimal 1 8 [featA, featC] (by simp) hout⟩

/-- C3: if some zone polygon contains the point then the zone result has
method inside, confidence high and no distance; a nearest result is only
produced when no zone polygon contains the point, with confidence low and
distance populated. -/
theorem zone_method_confidence_split (lat lng : ℚ) (fs : List Feature) :
    ((∃ f ∈ fs, geomContains f.geometry ⟨lng, lat⟩ = true) →
      ∃ r, find_zone_for_point lat lng ⟨fs⟩ = Except.ok r ∧
        r.method = "inside" ∧ r.confidence = "high" ∧ r.distance_km = none) ∧
    ∀ r, find_zone_for_point lat lng ⟨fs⟩ = Except.ok r → r.method = "nearest" →
      r.confidence = "low" ∧ r.distance_km ≠ none ∧
      ∀ f ∈ fs, geomContains f.geometry ⟨lng, lat⟩ = false := by
  constructor
  · intro hex
    cases hfind : fs.find? (fun g => geomContains g.geometry (⟨lng, lat⟩ : Pt)) with
    | none =>
      exfalso
      obtain ⟨f, hf, hcont⟩ := hex
      have hnone := List.find?_eq_none.mp hfind f hf
      simp [hcont] at hnone
    | some f =>
      exact ⟨insideResult f.properties, find_zone_eq_inside lat lng fs f hfind, rfl, rfl, rfl⟩
  · intro r hr hm
    cases hfind : fs.find? (fun g => geomContains g.geometry (⟨lng, lat⟩ : Pt)) with
    | some f =>
      exfalso
      rw [find_zone_eq_inside lat lng fs f hfind] at hr
      injection hr with h2
      rw [← h2] at hm
      simp [insideResult] at hm
    | none =>
      have hforall : ∀ f ∈ fs, geomContains f.geometry ⟨lng, lat⟩ = false := by
        intro f hf
        have hnone := List.find?_eq_none.mp hfind f hf
        simpa using hnone
      cases fs with
      | nil =>
        exfalso
        rw [show find_zone_for_point lat lng ⟨[]⟩ = Except.error PyError.noneSubscript
          from rfl] at hr
        exact Except.noConfusion hr
      | cons f0 rest =>
        obtain ⟨i, heq, hall, hstrict⟩ :=
          find_zone_nearest_spec lat lng (f0 :: rest) hfind (by simp)
        rw [heq] at hr
        injection hr with h2
        refine ⟨?_, ?_, hforall⟩
        · rw [← h2]
          rfl
        · rw [← h2]
          simp [nearestResult]

/-- C3 witness: the layer [A] with interior point (lat 1, lng 1) yields an
inside result with high confidence and no distance. -/
theorem zone_method_confidence_split_check :
    (∃ f ∈ ([featA] : List Feature), geomContains f.geometry ⟨1, 1⟩ = true) ∧
    ∃ r, find_zone_for_point 1 1 ⟨[featA]⟩ = Except.ok r ∧
      r.method = "inside" ∧ r.confidence = "high" ∧ r.distance_km = none := by
  have hex : ∃ f ∈ ([featA] : List Feature), geomContains f.geometry ⟨1, 1⟩ = true :=
    ⟨featA, by simp, featA_contains_center⟩
  exact ⟨hex, (zone_method_confidence_split 1 1 [featA]).1 hex⟩

/-- C7: a missing region or branch layer yields the absent marker, and so
does a containment miss on a present layer; both lookups are total, so no
error is ever raised. -/
theorem missing_layer_not_detected (lat lng : ℚ) :
    find_region_for_point lat lng none = none ∧
    find_branch_for_point lat lng none = none ∧
    ∀ d : LayerData, (∀ f ∈ d.features, geomContains f.geometry ⟨lng, lat⟩ = false) →
      find_region_for_point lat lng (some d) = none ∧
      find_branch_for_point lat lng (some d) = none := by
  refine ⟨rfl, rfl, fun d hmiss => ?_⟩
  have hf := find?_none_of_all_false ⟨lng, lat⟩ d.features hmiss
  exact ⟨by simp [find_region_for_point, hf], by simp [find_branch_for_point, hf]⟩

/-- C7 witness: at (lat 10, lng 10), both the absent layer and the layer
[A] (which the point misses) yield the absent marker. -/
theorem missing_layer_not_detected_check :
    (∀ f ∈ (⟨[featA]⟩ : LayerData).features, geomContains f.geometry ⟨10, 10⟩ = false) ∧
    find_region_for_point 10 10 none = none ∧
    find_branch_for_point 10 10 none = none ∧
    find_region_for_point 10 10 (some ⟨[featA]⟩) = none ∧
    find_branch_for_point 10 10 (some ⟨[featA]⟩) = none := by
  have hmiss : ∀ f ∈ (⟨[featA]⟩ : LayerData).features,
      geomContains f.geometry ⟨10, 10⟩ = false := by
    intro f hf
    simp only [List.mem_cons, List.not_mem_nil, or_false] at hf
    rw [hf]
    exact featA_misses_corner
  exact ⟨hmiss, (missing_layer_not_detected 10 10).1, (missing_layer_not_detected 10 10).2.1,
    ((missing_layer_not_detected 10 10).2.2 ⟨[featA]⟩ hmiss).1,
    ((missing_layer_not_detected 10 10).2.2 ⟨[featA]⟩ hmiss).2⟩

theorem polyContains_boundary_false (pg : PolyGeom) (q : Pt)
    (h : onRing pg.outer q = true ∨ ∃ hl ∈ pg.holes, onRing hl q = true) :
    polyContains pg q = false := by
  rcases h with h | ⟨hl, hmem, hh⟩
  · simp [polyContains, h]
  · cases hpc : polyContains pg q with
    | false => rfl
    | true =>
      exfalso
      simp only [polyContains, Bool.and_eq_true, List.all_eq_true] at hpc
      obtain ⟨⟨h1, h2⟩, h3⟩ := hpc
      have h4 := h3 hl hmem
      rw [hh] at h4
      simp at h4

/-- C5 counterexample: the point (lat 0, lng 1) lies exactly on the bottom
edge of square A, yet no containment scan reports a match: the region and
branch lookups return the absent marker and the zone lookup takes the
nearest path.  The claimed boundary-inclusive policy is false for the
code, whose `polygon.contains` is an interior test. -/
theorem boundary_point_not_contained :
    onRing sqA.outer ⟨1, 0⟩ = true ∧
    polyContains sqA ⟨1, 0⟩ = false ∧
    geomContains featA.geometry ⟨1, 0⟩ = false ∧
    find_region_for_point 0 1 (some ⟨[featA]⟩) = none ∧
    find_branch_for_point 0 1 (some ⟨[featA]⟩) = none ∧
    find_zone_for_point 0 1 ⟨[featA]⟩ = Except.ok (nearestResult featA.properties 1) ∧
    (nearestResult featA.properties 1).method = "nearest" := by
  have hc : geomContains featA.geometry ⟨1, 0⟩ = false := by
    norm_num [featA, sqA, geomContains, polyContains, onRing, insideRing, edges, onSeg,
      crossesRay, List.countP, List.countP.go]
  have hfd : featDist ⟨1, 0⟩ featA = ((1 : ℚ) : ℝ) :=
    featDist_eval ⟨1, 0⟩ featA ⟨1, 1⟩ 1 featA_centroid (by norm_num) (by norm_num)
  have heval := find_zone_single 0 1 featA hc
  rw [hfd, Rat.cast_one] at heval
  have hfind := find?_none_of_all_false ⟨1, 0⟩ [featA] (by
    intro f hf
    simp only [List.mem_cons, List.not_mem_nil, or_false] at hf
    rw [hf]
    exact hc)
  refine ⟨by norm_num [sqA, onRing, edges, onSeg], ?_, hc,
    by simp [find_region_for_point, hfind], by simp [find_branch_for_point, hfind],
    heval, rfl⟩
  norm_num [sqA, polyContains, onRing, insideRing, edges, onSeg, crossesRay,
    List.countP, List.countP.go]

/-- C5 amended: the containment policy is boundary-EXCLUSIVE: for every
polygon and every point on that polygon's boundary (its outer ring or a
hole ring), the containment test reports no match, so a layer whose every
part has the point on its boundary yields the absent marker for region and
branch and never an inside zone result. -/
theorem boundary_exclusive_containment (lat lng : ℚ) (fs : List Feature)
    (h : ∀ f ∈ fs, ∀ pg ∈ f.geometry,
      onRing pg.outer ⟨lng, lat⟩ = true ∨ ∃ hl ∈ pg.holes, onRing hl ⟨lng, lat⟩ = true) :
    find_region_for_point lat lng (some ⟨fs⟩) = none ∧
    find_branch_for_point lat lng (some ⟨fs⟩) = none ∧
    ∀ r, find_zone_for_point lat lng ⟨fs⟩ = Except.ok r → r.method ≠ "inside" := by
  have hout : ∀ f ∈ fs, geomContains f.geometry ⟨lng, lat⟩ = false := by
    intro f hf
    cases hgc : geomContains f.geometry ⟨lng, lat⟩ with
    | false => rfl
    | true =>
      exfalso
      simp only [geomContains, List.any_eq_true] at hgc
      obtain ⟨pg, hpg, hcont⟩ := hgc
      rw [polyContains_boundary_false pg _ (h f hf pg hpg)] at hcont
      exact Bool.noConfusion hcont
  have hfind := find?_none_of_all_false ⟨lng, lat⟩ fs hout
  refine ⟨by simp [find_region_for_point, hfind], by simp [find_branch_for_point, hfind], ?_⟩
  intro r hr hm
  cases fs with
  | nil =>
    rw [show find_zone_for_point lat lng ⟨[]⟩ = Except.error PyError.noneSubscript
      from rfl] at hr
    exact Except.noConfusion hr
  | cons f0 rest =>
    obtain ⟨i, heq, hall, hstrict⟩ :=
      find_zone_nearest_spec lat lng (f0 :: rest) hfind (by simp)
    rw [heq] at hr
    injection hr with h2
    rw [← h2] at hm
    simp [nearestResult] at hm

/-- C5 amended witness: the layer [A] with the boundary point (lat 0,
lng 1) satisfies the boundary hypothesis and yields no containment match
anywhere. -/
theorem boundary_exclusive_containment_check :
    (∀ f ∈ ([featA] : List Feature), ∀ pg ∈ f.geometry,
      onRing pg.outer ⟨1, 0⟩ = true ∨ ∃ hl ∈ pg.holes, onRing hl ⟨1, 0⟩ = true) ∧
    (find_region_for_point 0 1 (some ⟨[featA]⟩) = none ∧
      find_branch_for_point 0 1 (some ⟨[featA]⟩) = none ∧
      ∀ r, find_zone_for_point 0 1 ⟨[featA]⟩ = Except.ok r → r.method ≠ "inside") := by
  have hb : ∀ f ∈ ([featA] : List Feature), ∀ pg ∈ f.geometry,
      onRing pg.outer ⟨1, 0⟩ = true ∨ ∃ hl ∈ pg.holes, onRing hl ⟨1, 0⟩ = true := by
    intro f hf pg hpg
    simp only [List.mem_cons, List.not_mem_nil, or_false] at hf
    subst hf
    simp only [featA, List.mem_cons, List.not_mem_nil, or_false] at hpg
    subst hpg
    exact Or.inl (by norm_num [sqA, onRing, edges, onSeg])
  exact ⟨hb, boundary_exclusive_containment 0 1 [featA] hb⟩

/-- C8 counterexample: the zone record `zf8` carries both aliases of the
zone id, the localized one with value "" and the legacy one with value
"Z-1"; the resolver returns "Z-1", not the localized value, because
Python's `or` treats the empty string as falsy. -/
theorem empty_localized_alias_falls_back :
    pget zf8.properties "bázis_id" = some "" ∧
    pget zf8.properties "zone_id" = some "Z-1" ∧
    find_zone_for_point 1 1 ⟨[zf8]⟩ = Except.ok (insideResult zf8.properties) ∧
    (insideResult zf8.properties).zone_id = some "Z-1" ∧
    (insideResult zf8.properties).zone_id ≠ pget zf8.properties "bázis_id" := by
  have hcont : geomContains zf8.geometry ⟨1, 1⟩ = true := by
    norm_num [zf8, sqA, geomContains, polyContains, onRing, insideRing, edges, onSeg,
      crossesRay, List.countP, List.countP.go]
  have hfind : ([zf8].find? (fun g => geomContains g.geometry (⟨1, 1⟩ : Pt))) = some zf8 :=
    List.find?_cons_of_pos _ hcont
  exact ⟨by simp [zf8, pget], by simp [zf8, pget],
    find_zone_eq_inside 1 1 [zf8] zf8 hfind,
    by simp [insideResult, zf8, pget, pyOr],
    by simp [insideResult, zf8, pget, pyOr]⟩

/-- C8 amended: the resolver accepts both aliases, and prefers the
localized alias exactly when its value is truthy (present, non-null and
non-empty); a falsy localized value falls back to the legacy alias.  The
same extraction is performed on both result paths: the containment-match
dictionary (insideResult, lines 110-115) and the nearest-fallback
dictionary (nearestResult, lines 137-141), each reachable through
`find_zone_for_point`. -/
theorem alias_preference_truthy (props : List (String × Option String)) :
    (∀ s, pget props "bázis_id" = some s → s ≠ "" →
      (insideResult props).zone_id = some s ∧
      ∀ d : ℝ, (nearestResult props d).zone_id = some s) ∧
    ((pget props "bázis_id" = none ∨ pget props "bázis_id" = some "") →
      (insideResult props).zone_id = pget props "zone_id" ∧
      ∀ d : ℝ, (nearestResult props d).zone_id = pget props "zone_id") ∧
    (∀ s, pget props "bázis_név" = some s → s ≠ "" →
      (insideResult props).zone_name = some s ∧
      ∀ d : ℝ, (nearestResult props d).zone_name = some s) ∧
    ((pget props "bázis_név" = none ∨ pget props "bázis_név" = some "") →
      (insideResult props).zone_name = pget props "zone_name" ∧
      ∀ d : ℝ, (nearestResult props d).zone_name = pget props "zone_name") ∧
    (∀ lat lng fs f, fs.find? (fun g => geomContains g.geometry ⟨lng, lat⟩) = some f →
      find_zone_for_point lat lng ⟨fs⟩ = Except.ok (insideResult f.properties)) ∧
    ∀ lat lng (fs : List Feature),
      fs.find? (fun g => geomContains g.geometry ⟨lng, lat⟩) = none → fs ≠ [] →
      ∃ i : Fin fs.length, find_zone_for_point lat lng ⟨fs⟩ =
        Except.ok (nearestResult (fs.get i).properties (featDist ⟨lng, lat⟩ (fs.get i))) := by
  refine ⟨?_, ?_, ?_, ?_,
    fun lat lng fs f hf => find_zone_eq_inside lat lng fs f hf,
    fun lat lng fs hfind hne => ?_⟩
  · intro s hs hne
    exact ⟨by simp [insideResult, pyOr, hs, hne],
      fun d => by simp [nearestResult, pyOr, hs, hne]⟩
  · intro hcase
    rcases hcase with hc | hc <;>
      exact ⟨by simp [insideResult, pyOr, hc],
        fun d => by simp [nearestResult, pyOr, hc]⟩
  · intro s hs hne
    exact ⟨by simp [insideResult, pyOr, hs, hne],
      fun d => by simp [nearestResult, pyOr, hs, hne]⟩
  · intro hcase
    rcases hcase with hc | hc <;>
      exact ⟨by simp [insideResult, pyOr, hc],
        fun d => by simp [nearestResult, pyOr, hc]⟩
  · obtain ⟨i, heq, hall, hstrict⟩ := find_zone_nearest_spec lat lng fs hfind hne
    exact ⟨i, heq⟩

/-- C8 amended witness: on `zf8` (localized id empty) the legacy value is
used and on `featA` (localized id "Z-A" truthy) the localized value is
used, on the containment-path and the nearest-path extraction alike; the
nearest-path dictionary is reached through `find_zone_for_point` on the
layer [A] at the outside point (lat 1, lng 2.001). -/
theorem alias_preference_truthy_check :
    (pget zf8.properties "bázis_id" = some "" ∧
      (insideResult zf8.properties).zone_id = pget zf8.properties "zone_id" ∧
      (nearestResult zf8.properties 1).zone_id = pget zf8.properties "zone_id") ∧
    (pget featA.properties "bázis_id" = some "Z-A" ∧
      (insideResult featA.properties).zone_id = some "Z-A" ∧
      (nearestResult featA.properties 1).zone_id = some "Z-A") ∧
    ([featA] : List Feature).find?
        (fun g => geomContains g.geometry ⟨2001/1000, 1⟩) = none ∧
    ∃ i : Fin ([featA] : List Feature).length,
      find_zone_for_point 1 (2001/1000) ⟨[featA]⟩ =
        Except.ok (nearestResult (([featA] : List Feature).get i).properties
          (featDist ⟨2001/1000, 1⟩ (([featA] : List Feature).get i))) := by
  have hk8 : pget zf8.properties "bázis_id" = some "" := by simp [zf8, pget]
  have hkA : pget featA.properties "bázis_id" = some "Z-A" := by simp [featA, pget]
  have hmiss : geomContains featA.geometry ⟨2001/1000, 1⟩ = false := by
    norm_num [featA, sqA, geomContains, polyContains, onRing, insideRing, edges, onSeg,
      crossesRay, List.countP, List.countP.go]
  have hfind : (([featA] : List Feature).find?
      (fun g => geomContains g.geometry ⟨2001/1000, 1⟩)) = none := by
    rw [List.find?_cons_of_neg _ (by simp [hmiss])]
    rfl
  refine ⟨⟨hk8, ((alias_preference_truthy zf8.properties).2.1 (Or.inr hk8)).1,
      ((alias_preference_truthy zf8.properties).2.1 (Or.inr hk8)).2 1⟩,
    ⟨hkA, ((alias_preference_truthy featA.properties).1 "Z-A" hkA (by simp)).1,
      ((alias_preference_truthy featA.properties).1 "Z-A" hkA (by simp)).2 1⟩,
    hfind,
    (alias_preference_truthy featA.properties).2.2.2.2.2 1 (2001/1000) [featA] hfind
      (by simp)⟩

/-- C9 counterexample: with no region match and a matched zone record
whose `Régió` attribute is present but empty, the submission's region
label is the absent marker "N/A", not the zone-carried value, again
because Python's `or` treats "" as falsy. -/
theorem empty_zone_region_label_na :
    find_region_for_point 1 1 none = none ∧
    find_zone_for_point 1 1 ⟨[zf9]⟩ = Except.ok (insideResult zf9.properties) ∧
    (insideResult zf9.properties).region_name = some "" ∧
    submissionRegionName none (insideResult zf9.properties) = some "N/A" ∧
    (some "N/A" : Option String) ≠ some "" := by
  have hcont : geomContains zf9.geometry ⟨1, 1⟩ = true := by
    norm_num [zf9, sqA, geomContains, polyContains, onRing, insideRing, edges, onSeg,
      crossesRay, List.countP, List.countP.go]
  have hfind : ([zf9].find? (fun g => geomContains g.geometry (⟨1, 1⟩ : Pt))) = some zf9 :=
    List.find?_cons_of_pos _ hcont
  exact ⟨rfl, find_zone_eq_inside 1 1 [zf9] zf9 hfind,
    by simp [insideResult, zf9, pget],
    by simp [submissionRegionName, insideResult, zf9, pget, pyOr],
    by simp⟩

/-- C9 amended: when the region layer produced no match, the submission's
region label is the zone-carried region name exactly when that value is
truthy (non-null, non-empty), and the marker "N/A" otherwise; when the
region layer matched, the region layer's value is used and the
zone-carried one is ignored. -/
theorem region_label_fallback_truthy :
    (∀ (zr : ZoneResult) (s : String), zr.region_name = some s → s ≠ "" →
      submissionRegionName none zr = some s) ∧
    (∀ zr : ZoneResult, zr.region_name = none ∨ zr.region_name = some "" →
      submissionRegionName none zr = some "N/A") ∧
    ∀ (rr : RegionResult) (zr : ZoneResult),
      submissionRegionName (some rr) zr = rr.region_name := by
  refine ⟨?_, ?_, fun rr zr => rfl⟩
  · intro zr s hs hne
    simp [submissionRegionName, pyOr, hs, hne]
  · intro zr hc
    rcases hc with hc | hc <;> simp [submissionRegionName, pyOr, hc]

/-- C9 amended witness: a zone record carrying `Régió = "Tiszántúl"`
surfaces that label when the region layer missed; a zone record without
the attribute yields "N/A"; a region match always wins. -/
theorem region_label_fallback_truthy_check :
    ((insideResult zf9b.properties).region_name = some "Tiszántúl" ∧
      submissionRegionName none (insideResult zf9b.properties) = some "Tiszántúl") ∧
    ((insideResult zf8.properties).region_name = none ∧
      submissionRegionName none (insideResult zf8.properties) = some "N/A") ∧
    submissionRegionName (some (regionAttrs featA.properties)) (insideResult zf9b.properties) =
      (regionAttrs featA.properties).region_name := by
  refine ⟨⟨by simp [insideResult, zf9b, pget], ?_⟩, ⟨by simp [insideResult, zf8, pget], ?_⟩, ?_⟩
  · exact region_label_fallback_truthy.1 (insideResult zf9b.properties) "Tiszántúl"
      (by simp [insideResult, zf9b, pget]) (by simp)
  · exact region_label_fallback_truthy.2.1 (insideResult zf8.properties)
      (Or.inl (by simp [insideResult, zf8, pget]))
  · exact region_label_fallback_truthy.2.2 _ _

theorem featA_dist_2001 : featDist ⟨2001/1000, 1⟩ featA = (1001/1000 : ℝ) := by
  rw [featDist_eval ⟨2001/1000, 1⟩ featA ⟨1, 1⟩ (1001/1000) featA_centroid
    (by norm_num) (by norm_num)]
  norm_num

theorem featA_eval_2001 : find_zone_for_point 1 (2001/1000) ⟨[featA]⟩ =
    Except.ok (nearestResult featA.properties (1001/1000 : ℝ)) := by
  have hc : geomContains featA.geometry ⟨2001/1000, 1⟩ = false := by
    norm_num [featA, sqA, geomContains, polyContains, onRing, insideRing, edges, onSeg,
      crossesRay, List.countP, List.countP.go]
  have h := find_zone_single 1 (2001/1000) featA hc
  rw [featA_dist_2001] at h
  exact h

theorem pyRound2_85085 : pyRound2 ((1001/1000 : ℝ) * 85) = 8508/100 := by
  have h1 : (1001/1000 : ℝ) * 85 * 100 = ((8508 : ℤ) : ℝ) + 1/2 := by
    push_cast
    norm_num
  rw [pyRound2, roundHalfEven_tie_even _ 8508 h1 (by decide)]
  norm_num

theorem pyRound2_85087 : pyRound2 ((85087/85000 : ℝ) * 85) = 8509/100 := by
  rw [pyRound2, roundHalfEven_of_gt ((85087/85000 : ℝ) * 85 * 100) 8508
    (by push_cast; norm_num) (by push_cast; norm_num)]
  push_cast
  norm_num

theorem pyRound2_85091 : pyRound2 ((85091/85000 : ℝ) * 85) = 8509/100 := by
  rw [pyRound2, roundHalfEven_of_lt ((85091/85000 : ℝ) * 85 * 100) 8509
    (by push_cast; norm_num) (by push_cast; norm_num)]
  push_cast
  norm_num

theorem featA_dist_85087 : featDist ⟨170087/85000, 1⟩ featA = (85087/85000 : ℝ) := by
  rw [featDist_eval ⟨170087/85000, 1⟩ featA ⟨1, 1⟩ (85087/85000) featA_centroid
    (by norm_num) (by norm_num)]
  norm_num

theorem featA_dist_85091 : featDist ⟨170091/85000, 1⟩ featA = (85091/85000 : ℝ) := by
  rw [featDist_eval ⟨170091/85000, 1⟩ featA ⟨1, 1⟩ (85091/85000) featA_centroid
    (by norm_num) (by norm_num)]
  norm_num

theorem featA_eval_85087 : find_zone_for_point 1 (170087/85000) ⟨[featA]⟩ =
    Except.ok (nearestResult featA.properties (85087/85000 : ℝ)) := by
  have hc : geomContains featA.geometry ⟨170087/85000, 1⟩ = false := by
    norm_num [featA, sqA, geomContains, polyContains, onRing, insideRing, edges, onSeg,
      crossesRay, List.countP, List.countP.go]
  have h := find_zone_single 1 (170087/85000) featA hc
  rw [featA_dist_85087] at h
  exact h

theorem featA_eval_85091 : find_zone_for_point 1 (170091/85000) ⟨[featA]⟩ =
    Except.ok (nearestResult featA.properties (85091/85000 : ℝ)) := by
  have hc : geomContains featA.geometry ⟨170091/85000, 1⟩ = false := by
    norm_num [featA, sqA, geomContains, polyContains, onRing, insideRing, edges, onSeg,
      crossesRay, List.countP, List.countP.go]
  have h := find_zone_single 1 (170091/85000) featA hc
  rw [featA_dist_85091] at h
  exact h

/-- C4 counterexample: with the single-zone layer [A] and the point
(lat 1, lng 2.001), the minimum centroid distance is exactly 1.001
degrees, so the claimed value would be 1.001 * 85 = 85.085; the code
reports 85.08 (the product rounded half-to-even to two decimals), which
differs from the exact product. -/
theorem distance_km_not_exact_product :
    featDist ⟨2001/1000, 1⟩ featA = (1001/1000 : ℝ) ∧
    find_zone_for_point 1 (2001/1000) ⟨[featA]⟩ =
      Except.ok (nearestResult featA.properties (1001/1000 : ℝ)) ∧
    (nearestResult featA.properties (1001/1000 : ℝ)).distance_km = some (8508/100 : ℝ) ∧
    (8508/100 : ℝ) ≠ (1001/1000 : ℝ) * 85 := by
  refine ⟨featA_dist_2001, featA_eval_2001, ?_, by norm_num⟩
  rw [show (nearestResult featA.properties (1001/1000 : ℝ)).distance_km =
    some (pyRound2 ((1001/1000 : ℝ) * 85)) from rfl, pyRound2_85085]

/-- C4 amended: whenever the zone result has method nearest, its
distance value is the minimum point-to-centroid degree distance times 85,
rounded half-to-even to two decimals, and it is non-negative. -/
theorem distance_km_rounded_product (lat lng : ℚ) (fs : List Feature) (r : ZoneResult)
    (h : find_zone_for_point lat lng ⟨fs⟩ = Except.ok r) (hm : r.method = "nearest") :
    ∃ i : Fin fs.length,
      r.distance_km = some (pyRound2 (featDist ⟨lng, lat⟩ (fs.get i) * 85)) ∧
      (∃ km, r.distance_km = some km ∧ 0 ≤ km) ∧
      ∀ j : Fin fs.length,
        featDist ⟨lng, lat⟩ (fs.get i) ≤ featDist ⟨lng, lat⟩ (fs.get j) := by
  cases hfind : fs.find? (fun g => geomContains g.geometry (⟨lng, lat⟩ : Pt)) with
  | some f =>
    exfalso
    rw [find_zone_eq_inside lat lng fs f hfind] at h
    injection h with h2
    rw [← h2] at hm
    simp [insideResult] at hm
  | none =>
    cases fs with
    | nil =>
      exfalso
      rw [show find_zone_for_point lat lng ⟨[]⟩ = Except.error PyError.noneSubscript
        from rfl] at h
      exact Except.noConfusion h
    | cons f0 rest =>
      obtain ⟨i, heq, hall, hstrict⟩ :=
        find_zone_nearest_spec lat lng (f0 :: rest) hfind (by simp)
      rw [heq] at h
      injection h with h2
      refine ⟨i, ?_, ?_, hall⟩
      · rw [← h2]
        rfl
      · refine ⟨pyRound2 (featDist ⟨lng, lat⟩ ((f0 :: rest).get i) * 85),
          by rw [← h2]; rfl, ?_⟩
        exact pyRound2_nonneg _ (mul_nonneg (Real.sqrt_nonneg _) (by norm_num))

/-- C4 amended witness: the layer [A] with the point (lat 1, lng 2.001)
has a nearest result whose distance value is the rounded scaled minimum
and is non-negative. -/
theorem distance_km_rounded_product_check :
    (find_zone_for_point 1 (2001/1000) ⟨[featA]⟩ =
      Except.ok (nearestResult featA.properties (1001/1000 : ℝ)) ∧
     (nearestResult featA.properties (1001/1000 : ℝ)).method = "nearest") ∧
    ∃ i : Fin ([featA] : List Feature).length,
      (nearestResult featA.properties (1001/1000 : ℝ)).distance_km =
        some (pyRound2 (featDist ⟨2001/1000, 1⟩ (([featA] : List Feature).get i) * 85)) ∧
      (∃ km, (nearestResult featA.properties (1001/1000 : ℝ)).distance_km = some km ∧
        0 ≤ km) ∧
      ∀ j : Fin ([featA] : List Feature).length,
        featDist ⟨2001/1000, 1⟩ (([featA] : List Feature).get i) ≤
          featDist ⟨2001/1000, 1⟩ (([featA] : List Feature).get j) :=
  ⟨⟨featA_eval_2001, rfl⟩,
    distance_km_rounded_product 1 (2001/1000) [featA] _ featA_eval_2001 rfl⟩

/-- C6: invoked on a zone layer with zero records, the lookup does not
fail with a distinguished empty-layer error: the containment scan and the
nearest loop both see no features, `nearest_zone` stays None, and line 136
raises a TypeError from subscripting None. -/
theorem empty_zone_layer_type_error :
    find_zone_for_point (95/2) (108/5) ⟨[]⟩ = Except.error PyError.noneSubscript := rfl

/-- C10: in the nearest-fallback path the reported distance is the scaled
minimum rounded to two decimals, not the exact product: two runs whose raw
minimum distances differ, with scaled values 85.087 and 85.091 (0.004 km
apart), both report 85.09, and neither report equals its exact product. -/
theorem distance_km_rounding_collision :
    find_zone_for_point 1 (170087/85000) ⟨[featA]⟩ =
      Except.ok (nearestResult featA.properties (85087/85000 : ℝ)) ∧
    find_zone_for_point 1 (170091/85000) ⟨[featA]⟩ =
      Except.ok (nearestResult featA.properties (85091/85000 : ℝ)) ∧
    (85087/85000 : ℝ) ≠ (85091/85000 : ℝ) ∧
    |(85087/85000 : ℝ) * 85 - (85091/85000 : ℝ) * 85| < 5/1000 ∧
    (nearestResult featA.properties (85087/85000 : ℝ)).distance_km = some (8509/100 : ℝ) ∧
    (nearestResult featA.properties (85091/85000 : ℝ)).distance_km = some (8509/100 : ℝ) ∧
    (nearestResult featA.properties (85087/85000 : ℝ)).distance_km ≠
      some ((85087/85000 : ℝ) * 85) := by
  refine ⟨featA_eval_85087, featA_eval_85091, by norm_num, ?_, ?_, ?_, ?_⟩
  · rw [abs_lt]
    constructor <;> norm_num
  · rw [show (nearestResult featA.properties (85087/85000 : ℝ)).distance_km =
      some (pyRound2 ((85087/85000 : ℝ) * 85)) from rfl, pyRound2_85087]
  · rw [show (nearestResult featA.properties (85091/85000 : ℝ)).distance_km =
      some (pyRound2 ((85091/85000 : ℝ) * 85)) from rfl, pyRound2_85091]
  · rw [show (nearestResult featA.properties (85087/85000 : ℝ)).distance_km =
      some (pyRound2 ((85087/85000 : ℝ) * 85)) from rfl, pyRound2_85087]
    simp only [ne_eq, Option.some.injEq]
    norm_num
